import Mathlib

/-!
# Verification of the LIBHGP I/O core (`src/include/IOFunctions.h`)

The repository ships the header `IOFunctions.h`: the data structures
(`gp_sample`, `gp_dataset`, `model`) and the declarations of the I/O
procedures (`readTrainFile`, `readUnlabeledFile`, `storeModel`,
`readModel`, `writeOutput`, `freeDataset`, `freeModel`).  The function
bodies are not part of the given sources, so the behavioural
definitions below are modelled from the specification document, each
one marked `Modelled from the spec:`.  The structure layouts and the
procedure signatures are embedded directly from the header.

Conventions of the shallow embedding:
* C `double` values are represented by `ℚ` (answers about structure and
  ordering, not about binary floating-point rounding, are at stake);
* a text file is a `List String` of lines; a file that cannot be
  opened is `Option.none`;
* the model file written by `storeModel` is a whitespace-separated
  token stream, embedded as `List Tok` (one constructor per numeric
  token) — the format is sequential and non-self-describing;
* fallible operations return `Except Err _`; returning `Except.error`
  models "no structure is handed to the caller" (atomic
  construct-or-fail).
-/

/-- Error taxonomy of the spec (§7): file access, malformed content,
memory exhaustion. -/
inductive Err where
  | FileError : Err
  | FormatError : Err
  | AllocationError : Err
deriving DecidableEq

/-- Decidable equality on `Except`, needed to evaluate the fallible
operations on concrete inputs. -/
instance instDecEqExcept {ε α : Type} [DecidableEq ε] [DecidableEq α] :
    DecidableEq (Except ε α)
  | Except.error x, Except.error y =>
    match decEq x y with
    | isTrue h => isTrue (congrArg Except.error h)
    | isFalse h => isFalse (fun hc => h (Except.error.inj hc))
  | Except.error _, Except.ok _ => isFalse (fun hc => Except.noConfusion hc)
  | Except.ok _, Except.error _ => isFalse (fun hc => Except.noConfusion hc)
  | Except.ok x, Except.ok y =>
    match decEq x y with
    | isTrue h => isTrue (congrArg Except.ok h)
    | isFalse h => isFalse (fun hc => h (Except.ok.inj hc))

/-- A single sparse feature, from `struct gp_sample` in the header:
a feature `index` and its `value`. -/
structure gp_sample where
  index : Int
  value : ℚ
deriving DecidableEq

/-- Sum of squared feature values of one sample: the quantity the
`quadratic_value` caches hold ("The L2 norm of every sample"). -/
def sumSq (sv : List gp_sample) : ℚ :=
  (sv.map (fun s => s.value * s.value)).sum

/- ## Character-level numeric parsing (Sparse Feature Codec, spec §4.1) -/

/-- Numeric value of a digit-only character list (most significant
first), accumulator style. -/
def digitsValAux : List Char → Nat → Nat
  | [], acc => acc
  | c :: cs, acc => digitsValAux cs (acc * 10 + (c.toNat - 48))

/-- Numeric value of a digit list. -/
def digitsVal (cs : List Char) : Nat := digitsValAux cs 0

/-- Strip one optional sign character; returns (isNegative, rest). -/
def splitSign : List Char → Bool × List Char
  | '-' :: cs => (true, cs)
  | '+' :: cs => (false, cs)
  | cs => (false, cs)

/-- Longest prefix of decimal digits, and the remainder. -/
def spanDigits : List Char → List Char × List Char
  | [] => ([], [])
  | c :: cs =>
    if c.isDigit then
      let p := spanDigits cs
      (c :: p.1, p.2)
    else ([], c :: cs)

/-- Modelled from the spec: the mantissa part of a floating-point
token — `digits`, `digits.digits`, `digits.` or `.digits`; at least
one digit overall.  Returns the value and the unconsumed remainder. -/
def parseMantissa (cs : List Char) : Option (ℚ × List Char) :=
  let ip := spanDigits cs
  match ip.2 with
  | '.' :: r2 =>
    let fp := spanDigits r2
    if ip.1.isEmpty && fp.1.isEmpty then none
    else some ((digitsVal ip.1 : ℚ) + (digitsVal fp.1 : ℚ) / (10 : ℚ) ^ fp.1.length, fp.2)
  | _ =>
    if ip.1.isEmpty then none else some ((digitsVal ip.1 : ℚ), ip.2)

/-- Modelled from the spec: exponent part after `e`/`E`: optional
sign, then one or more digits, consuming the whole remainder. -/
def parseExponent (cs : List Char) : Option Int :=
  let sp := splitSign cs
  if sp.2.isEmpty then none
  else if sp.2.all Char.isDigit then
    some (if sp.1 then -(digitsVal sp.2 : Int) else (digitsVal sp.2 : Int))
  else none

/-- Modelled from the spec (§4.1, the body of the codec is absent from
the sources): numeric parsing of a floating-point token — optional
sign, mantissa, optional `e`/`E` exponent; `none` on any malformed
input (the caller turns that into `FormatError`). -/
def parseRat (cs : List Char) : Option ℚ :=
  let sp := splitSign cs
  match parseMantissa sp.2 with
  | none => none
  | some (m, rest) =>
    let v := if sp.1 then -m else m
    match rest with
    | [] => some v
    | e :: r2 =>
      if e = 'e' || e = 'E' then
        match parseExponent r2 with
        | none => none
        | some k => some (v * (10 : ℚ) ^ k)
      else none

/-- Modelled from the spec (§4.1): the index part of a feature token
parses as an integer and must be positive; otherwise `FormatError`. -/
def parseIndex (cs : List Char) : Except Err Int :=
  let sp := splitSign cs
  if sp.2.isEmpty then Except.error Err.FormatError
  else if sp.2.all Char.isDigit then
    let i : Int := if sp.1 then -(digitsVal sp.2 : Int) else (digitsVal sp.2 : Int)
    if 0 < i then Except.ok i else Except.error Err.FormatError
  else Except.error Err.FormatError

/-- Split a token at its first `:`; `none` when no separator occurs. -/
def breakColon : List Char → Option (List Char × List Char)
  | [] => none
  | c :: cs =>
    if c = ':' then some ([], cs)
    else
      match breakColon cs with
      | none => none
      | some p => some (c :: p.1, p.2)

/-- Modelled from the spec (§4.1 `decodeToken`): split on the first
`:`; the left part is a positive integer index, the right part a
floating-point value; `FormatError` when the separator is missing, the
index is non-positive or non-integral, or the value fails numeric
parsing. -/
def decodeToken (cs : List Char) : Except Err gp_sample :=
  match breakColon cs with
  | none => Except.error Err.FormatError
  | some p =>
    match parseIndex p.1 with
    | Except.error e => Except.error e
    | Except.ok i =>
      match parseRat p.2 with
      | none => Except.error Err.FormatError
      | some v => Except.ok ⟨i, v⟩

/- ## Dataset Loader (spec §4.2, header `readTrainFile` / `readUnlabeledFile`) -/

/-- Whitespace tokenisation of one text line: maximal runs of
non-whitespace characters, in order.  The accumulator holds the
current token reversed. -/
def splitWsAux : List Char → List Char → List (List Char)
  | [], acc => if acc.isEmpty then [] else [acc.reverse]
  | c :: cs, acc =>
    if c.isWhitespace then
      if acc.isEmpty then splitWsAux cs []
      else acc.reverse :: splitWsAux cs []
    else splitWsAux cs (c :: acc)

/-- The whitespace-separated tokens of one line of text. -/
def lineTokens (s : String) : List (List Char) := splitWsAux s.data []

/-- Fail-fast map over a list in `Except`: the first error aborts the
whole traversal (the loader's abort-on-first-malformed-token shape). -/
def mapExcept {α β : Type} (f : α → Except Err β) : List α → Except Err (List β)
  | [] => Except.ok []
  | a :: as =>
    match f a with
    | Except.error e => Except.error e
    | Except.ok b =>
      match mapExcept f as with
      | Except.error e => Except.error e
      | Except.ok bs => Except.ok (b :: bs)

/-- Running maximum of the feature indices over all samples, starting
from 0 — the loader's `maxdim` computation. -/
def maxIdx (xs : List (List gp_sample)) : Int :=
  ((xs.flatMap (fun sv => sv.map gp_sample.index)).foldl max 0)

/-- The in-memory dataset, from `struct gp_dataset` in the header.
`x` holds each sample's feature list (in the C layout, a pointer into
the shared `features` arena per sample; the arena itself carries no
extra information beyond the per-sample lists, so it is not repeated
here).  `l` is the labeled flag, `y` the labels, `quadratic_value`
the per-sample L2-norm cache. -/
structure gp_dataset where
  l : Bool
  sparse : Bool
  maxdim : Int
  y : List ℚ
  x : List (List gp_sample)
  quadratic_value : List ℚ
deriving DecidableEq

/-- Modelled from the spec (§4.2): one unlabeled line — every token is
a feature token. -/
def parseUnlabeledToks (ts : List (List Char)) : Except Err (List gp_sample) :=
  mapExcept decodeToken ts

/-- Modelled from the spec (§4.2): one labeled line — the first token
is the floating-point label, the rest are feature tokens. -/
def parseLabeledToks : List (List Char) → Except Err (ℚ × List gp_sample)
  | [] => Except.error Err.FormatError
  | lab :: feats =>
    match parseRat lab with
    | none => Except.error Err.FormatError
    | some yv =>
      match mapExcept decodeToken feats with
      | Except.error e => Except.error e
      | Except.ok xs => Except.ok (yv, xs)

/-- Modelled from the spec (§4.2, the body of `readUnlabeledFile` is
absent from the sources): a source that cannot be opened is `none`
(`FileError`); otherwise blank lines are dropped, every remaining line
is parsed as feature tokens, any malformed token aborts the load, and
on success `maxdim` and `quadratic_value` are computed from the parsed
features. -/
def readUnlabeledFile (src : Option (List String)) : Except Err gp_dataset :=
  match src with
  | none => Except.error Err.FileError
  | some lines =>
    match mapExcept parseUnlabeledToks ((lines.map lineTokens).filter (fun t => !t.isEmpty)) with
    | Except.error e => Except.error e
    | Except.ok xs =>
      Except.ok ⟨false, true, maxIdx xs, [], xs, xs.map sumSq⟩

/-- Modelled from the spec (§4.2, the body of `readTrainFile` is
absent from the sources): like `readUnlabeledFile` but each non-blank
line starts with its label; the labeled flag is set and the labels
collected in order. -/
def readTrainFile (src : Option (List String)) : Except Err gp_dataset :=
  match src with
  | none => Except.error Err.FileError
  | some lines =>
    match mapExcept parseLabeledToks ((lines.map lineTokens).filter (fun t => !t.isEmpty)) with
    | Except.error e => Except.error e
    | Except.ok rows =>
      Except.ok ⟨true, true, maxIdx (rows.map Prod.snd), rows.map Prod.fst,
                 rows.map Prod.snd, (rows.map Prod.snd).map sumSq⟩

/- ## Model Serializer (spec §4.3, header `storeModel` / `readModel`) -/

/-- The in-memory trained model, from `struct model` in the header:
kernel type code, kernel hyperparameters, support-vector count
`nData`, per-support-vector `weights`, `bias`, support vectors `x`
(per-SV feature lists; in the C layout pointers into the `features`
arena), the `quadratic_value` L2-norm cache, `nElem` and `maxdim`. -/
structure model where
  kernelType : Int
  kernelHyperParam : List ℚ
  nData : Int
  weights : List ℚ
  bias : ℚ
  x : List (List gp_sample)
  quadratic_value : List ℚ
  nElem : Int
  maxdim : Int
deriving DecidableEq

/-- One whitespace-separated numeric token of the model file: an
integer field or a floating-point field. -/
inductive Tok where
  | i : Int → Tok
  | f : ℚ → Tok
deriving DecidableEq

/-- Emit a list of floating-point values, then continue with `rest`. -/
def emitFloats : List ℚ → List Tok → List Tok
  | [], rest => rest
  | q :: qs, rest => Tok.f q :: emitFloats qs rest

/-- Encode one feature as its index token followed by its value
token (`encodeToken` of the codec, at token level), then continue. -/
def encodeFeatures : List gp_sample → List Tok → List Tok
  | [], rest => rest
  | s :: ss, rest => Tok.i s.index :: Tok.f s.value :: encodeFeatures ss rest

/-- Modelled from the spec: one support-vector record — its feature
count, its encoded feature list, then its weight (the per-record
feature count is the length information the fixed-order,
non-self-describing format needs in order to be parseable). -/
def encodeSV (sv : List gp_sample) (w : ℚ) (rest : List Tok) : List Tok :=
  Tok.i (sv.length : Int) :: encodeFeatures sv (Tok.f w :: rest)

/-- Emit every (support vector, weight) record in order. -/
def encodeSVs : List (List gp_sample × ℚ) → List Tok → List Tok
  | [], rest => rest
  | p :: ps, rest => encodeSV p.1 p.2 (encodeSVs ps rest)

/-- Modelled from the spec (§4.3, the body of `storeModel` is absent
from the sources): sequential write of the fixed-order record —
kernel type code, hyperparameter count and values, bias,
support-vector count, `nElem`, `maxdim`, then per support vector its
encoded feature list followed by its weight.  The derived
`quadratic_value` cache is not persisted. -/
def storeModel (m : model) : List Tok :=
  Tok.i m.kernelType ::
  Tok.i (m.kernelHyperParam.length : Int) ::
  emitFloats m.kernelHyperParam
    (Tok.f m.bias ::
     Tok.i m.nData ::
     Tok.i m.nElem ::
     Tok.i m.maxdim ::
     encodeSVs (m.x.zip m.weights) [])

/-- Read one integer token; any other shape of the stream is a
malformed field. -/
def readI : List Tok → Except Err (Int × List Tok)
  | Tok.i n :: r => Except.ok (n, r)
  | _ => Except.error Err.FormatError

/-- Read one floating-point token. -/
def readF : List Tok → Except Err (ℚ × List Tok)
  | Tok.f q :: r => Except.ok (q, r)
  | _ => Except.error Err.FormatError

/-- Read exactly `n` floating-point tokens. -/
def readFs : Nat → List Tok → Except Err (List ℚ × List Tok)
  | 0, ts => Except.ok ([], ts)
  | n + 1, ts =>
    match readF ts with
    | Except.error e => Except.error e
    | Except.ok (q, ts1) =>
      match readFs n ts1 with
      | Except.error e => Except.error e
      | Except.ok p => Except.ok (q :: p.1, p.2)

/-- Read exactly `n` features (index token then value token); as in
the codec, a non-positive index is a malformed field. -/
def readFeatures : Nat → List Tok → Except Err (List gp_sample × List Tok)
  | 0, ts => Except.ok ([], ts)
  | n + 1, ts =>
    match readI ts with
    | Except.error e => Except.error e
    | Except.ok (i, ts1) =>
      if i ≤ 0 then Except.error Err.FormatError
      else
        match readF ts1 with
        | Except.error e => Except.error e
        | Except.ok (v, ts2) =>
          match readFeatures n ts2 with
          | Except.error e => Except.error e
          | Except.ok p => Except.ok (⟨i, v⟩ :: p.1, p.2)

/-- Read exactly `n` support-vector records: feature count, features,
weight.  A stream that ends early is a truncated record. -/
def readSVs : Nat → List Tok → Except Err ((List (List gp_sample) × List ℚ) × List Tok)
  | 0, ts => Except.ok (([], []), ts)
  | n + 1, ts =>
    match readI ts with
    | Except.error e => Except.error e
    | Except.ok (nf, ts1) =>
      if nf < 0 then Except.error Err.FormatError
      else
        match readFeatures nf.toNat ts1 with
        | Except.error e => Except.error e
        | Except.ok (sv, ts2) =>
          match readF ts2 with
          | Except.error e => Except.error e
          | Except.ok (w, ts3) =>
            match readSVs n ts3 with
            | Except.error e => Except.error e
            | Except.ok p => Except.ok ((sv :: p.1.1, w :: p.1.2), p.2)

/-- Modelled from the spec (§4.3, the body of `readModel` is absent
from the sources): parse the same fixed field sequence that
`storeModel` writes; fail with `FormatError` on any field mismatch or
truncation; on success recompute `quadratic_value` from the loaded
features — it is never taken from persisted bytes. -/
def readModel (ts : List Tok) : Except Err model :=
  match readI ts with
  | Except.error e => Except.error e
  | Except.ok (kt, ts1) =>
    match readI ts1 with
    | Except.error e => Except.error e
    | Except.ok (nh, ts2) =>
      if nh < 0 then Except.error Err.FormatError
      else
        match readFs nh.toNat ts2 with
        | Except.error e => Except.error e
        | Except.ok (hp, ts3) =>
          match readF ts3 with
          | Except.error e => Except.error e
          | Except.ok (b, ts4) =>
            match readI ts4 with
            | Except.error e => Except.error e
            | Except.ok (nd, ts5) =>
              if nd < 0 then Except.error Err.FormatError
              else
                match readI ts5 with
                | Except.error e => Except.error e
                | Except.ok (ne, ts6) =>
                  match readI ts6 with
                  | Except.error e => Except.error e
                  | Except.ok (md, ts7) =>
                    match readSVs nd.toNat ts7 with
                    | Except.error e => Except.error e
                    | Except.ok p =>
                      Except.ok ⟨kt, hp, nd, p.1.2, b, p.1.1, p.1.1.map sumSq, ne, md⟩

/- ## Output Writer (spec §4.4, header `writeOutput`) -/

/-- The prediction output file as the writer leaves it: its lines (one
floating-point value per line) and whether the destination handle has
been released. -/
structure OutFile where
  lines : List ℚ
  released : Bool
deriving DecidableEq

/-- Modelled from the spec (§4.4, the body of `writeOutput` is absent
from the sources): when the destination can be created, write the
first `size` entries of the predictions array, one per line in input
order, and release the destination; otherwise fail with `FileError`.
The C `double *predictions` argument is embedded as the list of values
in memory at that pointer. -/
def writeOutput (canCreate : Bool) (predictions : List ℚ) (size : Nat) :
    Except Err OutFile :=
  if canCreate then Except.ok ⟨predictions.take size, true⟩
  else Except.error Err.FileError

/- ## The header's interface, embedded as data (for the signature and
layout claims) -/

/-- The C types occurring in the declarations of `IOFunctions.h`. -/
inductive CType where
  | void : CType
  | int : CType
  | double : CType
  | charArr : CType
  | filePtr : CType
  | intPtr : CType
  | doublePtr : CType
  | gp_datasetV : CType
  | modelV : CType
  | modelPtr : CType
  | gp_samplePtr : CType
  | gp_samplePtrPtr : CType
deriving DecidableEq

/-- One function declaration of the header: name, return type,
parameter types in order. -/
structure CFun where
  name : String
  ret : CType
  params : List CType
deriving DecidableEq

/-- The seven public procedures declared in `IOFunctions.h`, with
their exact signatures (header lines 120, 129, 144, 160, 171, 181,
193). -/
def coreAPI : List CFun :=
  [⟨"freeDataset", CType.void, [CType.gp_datasetV]⟩,
   ⟨"freeModel", CType.void, [CType.modelV]⟩,
   ⟨"readTrainFile", CType.gp_datasetV, [CType.charArr]⟩,
   ⟨"readUnlabeledFile", CType.gp_datasetV, [CType.charArr]⟩,
   ⟨"storeModel", CType.void, [CType.modelPtr, CType.filePtr]⟩,
   ⟨"readModel", CType.void, [CType.modelPtr, CType.filePtr]⟩,
   ⟨"writeOutput", CType.void, [CType.charArr, CType.doublePtr, CType.int]⟩]

/-- A declaration exposes an error channel iff it returns a scalar
status (an `int` or a pointer to one) or takes a status out-parameter
(`int *`). -/
def exposesErrorChannel (f : CFun) : Bool :=
  (f.ret = CType.int || f.ret = CType.intPtr) || f.params.contains CType.intPtr

/-- The fields of `struct gp_dataset` (header lines 103–111), in
declaration order, with their C types. -/
def gp_dataset_fields : List (String × CType) :=
  [("l", CType.int), ("sparse", CType.int), ("maxdim", CType.int),
   ("y", CType.doublePtr), ("x", CType.gp_samplePtrPtr),
   ("quadratic_value", CType.doublePtr), ("features", CType.gp_samplePtr)]

/-- The fields of `struct model` (header lines 68–82), in declaration
order, with their C types. -/
def model_fields : List (String × CType) :=
  [("kernelType", CType.int), ("kernelHyperParam", CType.doublePtr),
   ("nData", CType.int), ("weights", CType.doublePtr), ("bias", CType.double),
   ("x", CType.gp_samplePtrPtr), ("quadratic_value", CType.doublePtr),
   ("nElem", CType.int), ("maxdim", CType.int), ("features", CType.gp_samplePtr)]

/- ## By-value release calls (header `freeDataset` / `freeModel`) -/

/-- A heap, as the set of currently allocated block addresses. -/
def Heap : Type := List Nat

/-- Deallocate one block address. -/
def freeBlock (h : Heap) (a : Nat) : Heap := List.filter (fun b => b ≠ a) h

/-- The pointer-level view of `struct gp_dataset`: scalar fields plus
the addresses its pointer fields hold. -/
structure gp_datasetC where
  l : Int
  sparse : Int
  maxdim : Int
  y : Nat
  x : Nat
  quadratic_value : Nat
  features : Nat
deriving DecidableEq

/-- The pointer-level view of `struct model`. -/
structure modelC where
  kernelType : Int
  kernelHyperParam : Nat
  nData : Int
  weights : Nat
  bias : ℚ
  x : Nat
  quadratic_value : Nat
  nElem : Int
  maxdim : Int
  features : Nat
deriving DecidableEq

/-- Modelled from the spec (§4.5, the body of `freeDataset` is absent
from the sources): release the labels array, the per-sample pointer
table, the L2-norm cache and the feature arena as one unit.  The
callee works on its own copy of the struct and may clear that copy's
pointers; it returns the copy's final value together with the heap. -/
def freeDatasetBody (d : gp_datasetC) (h : Heap) : gp_datasetC × Heap :=
  (⟨d.l, d.sparse, d.maxdim, 0, 0, 0, 0⟩,
   freeBlock (freeBlock (freeBlock (freeBlock h d.y) d.x) d.quadratic_value) d.features)

/-- Modelled from the spec (§4.5): the analogous release of a model's
hyperparameter vector, weight array, pointer table, cache and arena. -/
def freeModelBody (m : modelC) (h : Heap) : modelC × Heap :=
  (⟨m.kernelType, 0, m.nData, 0, m.bias, 0, 0, m.nElem, m.maxdim, 0⟩,
   freeBlock (freeBlock (freeBlock (freeBlock (freeBlock h m.kernelHyperParam)
     m.weights) m.x) m.quadratic_value) m.features)

/-- The call `freeDataset(data)` as the header declares it
(`void freeDataset (gp_dataset data)`, line 120): the argument is
passed by value, so the callee operates on a copy; the caller keeps
its own record, and only the heap effect escapes. -/
def callFreeDataset (d : gp_datasetC) (h : Heap) : gp_datasetC × Heap :=
  (d, (freeDatasetBody d h).2)

/-- The call `freeModel(modelo)` as the header declares it
(`void freeModel (model modelo)`, line 129): by-value argument, heap
effect only. -/
def callFreeModel (m : modelC) (h : Heap) : modelC × Heap :=
  (m, (freeModelBody m h).2)

/-- A line is non-blank iff it carries at least one whitespace-
separated token (a line of only whitespace is blank). -/
def nonBlank (s : String) : Bool := !(lineTokens s).isEmpty

/-- The spec's wording of the `maxdim` invariant, as a predicate:
`md` bounds every feature index and is itself one of the observed
feature indices, or is 0 (in particular when no feature exists). -/
def maxSpec (xs : List (List gp_sample)) (md : Int) : Prop :=
  (∀ sv ∈ xs, ∀ s ∈ sv, s.index ≤ md) ∧
  ((∃ sv ∈ xs, ∃ s ∈ sv, s.index = md) ∨ md = 0)

instance (xs : List (List gp_sample)) (md : Int) : Decidable (maxSpec xs md) := by
  unfold maxSpec; infer_instance

/- ## Lemmas about the serializer -/

/-- `emitFloats` is append of the mapped tokens. -/
theorem emitFloats_eq (l : List ℚ) (rest : List Tok) :
    emitFloats l rest = l.map Tok.f ++ rest := by
  induction l with
  | nil => rfl
  | cons q qs ih => simp [emitFloats, ih]

/-- `encodeFeatures` flattens each feature to its index/value pair. -/
theorem encodeFeatures_eq (sv : List gp_sample) (rest : List Tok) :
    encodeFeatures sv rest =
      sv.flatMap (fun s => [Tok.i s.index, Tok.f s.value]) ++ rest := by
  induction sv with
  | nil => rfl
  | cons s ss ih => simp [encodeFeatures, ih]

/-- `encodeSVs` flattens each record to count, features, weight. -/
theorem encodeSVs_eq (ps : List (List gp_sample × ℚ)) (rest : List Tok) :
    encodeSVs ps rest =
      ps.flatMap (fun p =>
        Tok.i (p.1.length : Int) ::
          (p.1.flatMap (fun s => [Tok.i s.index, Tok.f s.value]) ++ [Tok.f p.2])) ++ rest := by
  induction ps with
  | nil => rfl
  | cons p ps ih => simp [encodeSVs, encodeSV, ih, encodeFeatures_eq]

/-- Reading back exactly the floats that were emitted. -/
theorem readFs_emitFloats (l : List ℚ) (rest : List Tok) :
    readFs l.length (emitFloats l rest) = Except.ok (l, rest) := by
  induction l generalizing rest with
  | nil => rfl
  | cons q qs ih => simp [emitFloats, readFs, readF, ih]

/-- Reading back exactly the features that were encoded, when every
index is positive (as the codec guarantees for any validly built
structure). -/
theorem readFeatures_encodeFeatures (sv : List gp_sample) (rest : List Tok)
    (hpos : ∀ s ∈ sv, 0 < s.index) :
    readFeatures sv.length (encodeFeatures sv rest) = Except.ok (sv, rest) := by
  induction sv generalizing rest with
  | nil => rfl
  | cons s ss ih =>
    have hs : ¬ s.index ≤ 0 := not_le.mpr (hpos s (by simp))
    have hss : ∀ a ∈ ss, 0 < a.index := fun a ha => hpos a (by simp [ha])
    simp [encodeFeatures, readFeatures, readI, readF, hs, ih rest hss]

/-- Reading back exactly the support-vector records that were
encoded. -/
theorem readSVs_encodeSVs (ps : List (List gp_sample × ℚ)) (rest : List Tok)
    (hpos : ∀ p ∈ ps, ∀ s ∈ p.1, 0 < s.index) :
    readSVs ps.length (encodeSVs ps rest) =
      Except.ok ((ps.map Prod.fst, ps.map Prod.snd), rest) := by
  induction ps generalizing rest with
  | nil => rfl
  | cons p ps ih =>
    have hp : ∀ s ∈ p.1, 0 < s.index := hpos p (by simp)
    have hps : ∀ q ∈ ps, ∀ s ∈ q.1, 0 < s.index := fun q hq => hpos q (by simp [hq])
    have hnf : ¬ ((p.1.length : Int) < 0) := Int.not_lt.mpr (Int.natCast_nonneg _)
    simp [encodeSVs, encodeSV, readSVs, readI, readF, hnf,
          readFeatures_encodeFeatures p.1 _ hp, ih _ hps]

/-- The heart of the round-trip law: parsing the written record of any
model whose counts are consistent and whose feature indices are
positive succeeds and reproduces the model, with the `quadratic_value`
cache recomputed from the features. -/
theorem storeModel_readModel (m : model)
    (hn : m.nData = (m.x.length : Int))
    (hw : m.weights.length = m.x.length)
    (hidx : ∀ sv ∈ m.x, ∀ s ∈ sv, 0 < s.index) :
    readModel (storeModel m) =
      Except.ok { m with quadratic_value := m.x.map sumSq } := by
  have hzip_len : (m.x.zip m.weights).length = m.x.length := by
    rw [List.length_zip, hw, min_self]
  have hfst : (m.x.zip m.weights).map Prod.fst = m.x :=
    List.map_fst_zip _ _ (le_of_eq hw.symm)
  have hsnd : (m.x.zip m.weights).map Prod.snd = m.weights :=
    List.map_snd_zip _ _ (le_of_eq hw)
  have hpos : ∀ p ∈ m.x.zip m.weights, ∀ s ∈ p.1, 0 < s.index := by
    intro p hp s hs
    exact hidx p.1 (List.of_mem_zip hp).1 s hs
  have hrs := readSVs_encodeSVs (m.x.zip m.weights) [] hpos
  rw [hzip_len, hfst, hsnd] at hrs
  have hnh : ¬ ((m.kernelHyperParam.length : Int) < 0) :=
    Int.not_lt.mpr (Int.natCast_nonneg _)
  have hnd : ¬ (m.nData < 0) := by
    rw [hn]; exact Int.not_lt.mpr (Int.natCast_nonneg _)
  have hndt : m.nData.toNat = m.x.length := by rw [hn]; exact Int.toNat_natCast _
  simp [storeModel, readModel, readI, readF, hnh, hnd, hndt,
        Int.toNat_natCast, readFs_emitFloats, hrs]

/- ## Lemmas about the loader -/

/-- The only error the index part of the codec produces is
`FormatError`. -/
theorem parseIndex_error (cs : List Char) (e : Err)
    (h : parseIndex cs = Except.error e) : e = Err.FormatError := by
  simp only [parseIndex] at h
  split_ifs at h <;> simp_all

/-- The only error the codec produces is `FormatError`. -/
theorem decodeToken_error (t : List Char) (e : Err)
    (h : decodeToken t = Except.error e) : e = Err.FormatError := by
  unfold decodeToken at h
  cases hbc : breakColon t with
  | none => rw [hbc] at h; simp_all
  | some p =>
    rw [hbc] at h
    dsimp only at h
    cases hpi : parseIndex p.1 with
    | error e1 =>
      rw [hpi] at h
      have := parseIndex_error p.1 e1 hpi
      simp_all
    | ok i =>
      rw [hpi] at h
      cases hpr : parseRat p.2 with
      | none => rw [hpr] at h; simp_all
      | some v => rw [hpr] at h; simp_all

/-- A successful `mapExcept` preserves the length. -/
theorem mapExcept_length {α β : Type} (f : α → Except Err β) (l : List α)
    (l' : List β) (h : mapExcept f l = Except.ok l') : l'.length = l.length := by
  induction l generalizing l' with
  | nil =>
    unfold mapExcept at h
    cases h
    rfl
  | cons a as ih =>
    unfold mapExcept at h
    cases hfa : f a with
    | error e => rw [hfa] at h; simp_all
    | ok b =>
      rw [hfa] at h
      cases hma : mapExcept f as with
      | error e => rw [hma] at h; simp_all
      | ok bs =>
        rw [hma] at h
        cases h
        simp [ih bs hma]

/-- If one element of the list fails and every failure of `f` is a
`FormatError`, the whole fail-fast traversal is a `FormatError`. -/
theorem mapExcept_error_of_mem {α β : Type} (f : α → Except Err β) (l : List α)
    (a : α) (ha : a ∈ l) (e0 : Err) (hf : f a = Except.error e0)
    (hcl : ∀ b e, f b = Except.error e → e = Err.FormatError) :
    mapExcept f l = Except.error Err.FormatError := by
  induction l with
  | nil => exact absurd ha (by simp)
  | cons b bs ih =>
    unfold mapExcept
    cases hfb : f b with
    | error e => simp [hcl b e hfb]
    | ok v =>
      rcases List.mem_cons.mp ha with rfl | hmem
      · rw [hfb] at hf
        exact absurd hf (by simp)
      · rw [ih hmem]

/-- Every failure of `mapExcept` is one of `f`'s failures. -/
theorem mapExcept_error_class {α β : Type} (f : α → Except Err β) (l : List α)
    (e : Err) (h : mapExcept f l = Except.error e)
    (hcl : ∀ b e', f b = Except.error e' → e' = Err.FormatError) :
    e = Err.FormatError := by
  induction l with
  | nil =>
    unfold mapExcept at h
    exact absurd h (by simp)
  | cons b bs ih =>
    unfold mapExcept at h
    cases hfb : f b with
    | error e1 =>
      rw [hfb] at h
      simp only [Except.error.injEq] at h
      exact h ▸ hcl b e1 hfb
    | ok v =>
      rw [hfb] at h
      cases hmb : mapExcept f bs with
      | error e1 =>
        rw [hmb] at h
        simp only [Except.error.injEq] at h
        rw [h] at hmb
        exact ih hmb
      | ok bs' => rw [hmb] at h; simp_all

/-- The only error an unlabeled line produces is `FormatError`. -/
theorem parseUnlabeledToks_error (ts : List (List Char)) (e : Err)
    (h : parseUnlabeledToks ts = Except.error e) : e = Err.FormatError :=
  mapExcept_error_class decodeToken ts e h decodeToken_error

/-- The only error a labeled line produces is `FormatError`. -/
theorem parseLabeledToks_error (ts : List (List Char)) (e : Err)
    (h : parseLabeledToks ts = Except.error e) : e = Err.FormatError := by
  cases ts with
  | nil => simp only [parseLabeledToks] at h; simp_all
  | cons lab feats =>
    simp only [parseLabeledToks] at h
    cases hpr : parseRat lab with
    | none => rw [hpr] at h; simp_all
    | some yv =>
      rw [hpr] at h
      cases hme : mapExcept decodeToken feats with
      | error e1 =>
        rw [hme] at h
        have := mapExcept_error_class decodeToken feats e1 hme decodeToken_error
        simp_all
      | ok xs => rw [hme] at h; simp_all

/-- A malformed feature token anywhere in an unlabeled line makes the
whole line fail with `FormatError`. -/
theorem parseUnlabeledToks_err_of_tok (ts : List (List Char)) (tok : List Char)
    (htok : tok ∈ ts) (hbad : decodeToken tok = Except.error Err.FormatError) :
    parseUnlabeledToks ts = Except.error Err.FormatError :=
  mapExcept_error_of_mem decodeToken ts tok htok Err.FormatError hbad decodeToken_error

/-- A malformed feature token anywhere after the label makes the whole
labeled line fail with `FormatError`. -/
theorem parseLabeledToks_err_of_tok (lab : List Char) (feats : List (List Char))
    (tok : List Char) (htok : tok ∈ feats)
    (hbad : decodeToken tok = Except.error Err.FormatError) :
    parseLabeledToks (lab :: feats) = Except.error Err.FormatError := by
  have hm := mapExcept_error_of_mem decodeToken feats tok htok Err.FormatError hbad decodeToken_error
  simp only [parseLabeledToks]
  cases hpr : parseRat lab with
  | none => simp [hpr]
  | some yv => simp [hpr, hm]

/-- A line holding a token is non-blank, hence kept by the loader's
line filter. -/
theorem lineTokens_mem_filter (lines : List String) (t : String) (tok : List Char)
    (ht : t ∈ lines) (htok : tok ∈ lineTokens t) :
    lineTokens t ∈ (lines.map lineTokens).filter (fun ts => !ts.isEmpty) := by
  refine List.mem_filter.mpr ⟨List.mem_map_of_mem lineTokens ht, ?_⟩
  cases hlt : lineTokens t with
  | nil => rw [hlt] at htok; exact absurd htok (by simp)
  | cons a as => simp

/-- Dropping blank lines commutes with tokenisation: the kept token
lists count the non-blank lines. -/
theorem filter_lineTokens_length (lines : List String) :
    ((lines.map lineTokens).filter (fun ts => !ts.isEmpty)).length =
      (lines.filter nonBlank).length := by
  induction lines with
  | nil => rfl
  | cons s ss ih =>
    by_cases hb : (lineTokens s).isEmpty <;>
      simp [nonBlank, hb, ih, List.filter_cons]

/-- Shape of every successful labeled load. -/
theorem readTrainFile_ok (lines : List String) (d : gp_dataset)
    (h : readTrainFile (some lines) = Except.ok d) :
    ∃ rows, mapExcept parseLabeledToks
        ((lines.map lineTokens).filter (fun ts => !ts.isEmpty)) = Except.ok rows ∧
      d = ⟨true, true, maxIdx (rows.map Prod.snd), rows.map Prod.fst,
           rows.map Prod.snd, (rows.map Prod.snd).map sumSq⟩ := by
  unfold readTrainFile at h
  dsimp only at h
  cases hme : mapExcept parseLabeledToks
      ((lines.map lineTokens).filter (fun ts => !ts.isEmpty)) with
  | error e => rw [hme] at h; simp_all
  | ok rows =>
    rw [hme] at h
    exact ⟨rows, rfl, (Except.ok.inj h).symm⟩

/-- Shape of every successful unlabeled load. -/
theorem readUnlabeledFile_ok (lines : List String) (d : gp_dataset)
    (h : readUnlabeledFile (some lines) = Except.ok d) :
    ∃ xs, mapExcept parseUnlabeledToks
        ((lines.map lineTokens).filter (fun ts => !ts.isEmpty)) = Except.ok xs ∧
      d = ⟨false, true, maxIdx xs, [], xs, xs.map sumSq⟩ := by
  unfold readUnlabeledFile at h
  dsimp only at h
  cases hme : mapExcept parseUnlabeledToks
      ((lines.map lineTokens).filter (fun ts => !ts.isEmpty)) with
  | error e => rw [hme] at h; simp_all
  | ok xs =>
    rw [hme] at h
    exact ⟨xs, rfl, (Except.ok.inj h).symm⟩

/-- Every model `readModel` hands out carries the recomputed cache. -/
theorem readModel_ok_cache (ts : List Tok) (m : model)
    (h : readModel ts = Except.ok m) :
    m.quadratic_value = m.x.map sumSq := by
  unfold readModel at h
  iterate 12 (all_goals try split at h)
  all_goals cases h
  all_goals rfl

/-- The initial value bounds a `foldl max`. -/
theorem foldl_max_init_le (l : List Int) (init : Int) : init ≤ l.foldl max init := by
  induction l generalizing init with
  | nil => exact le_refl _
  | cons b bs ih =>
    simp only [List.foldl_cons]
    exact le_trans (le_max_left init b) (ih (max init b))

/-- Every member bounds a `foldl max`. -/
theorem foldl_max_mem_le (l : List Int) (init a : Int) (ha : a ∈ l) :
    a ≤ l.foldl max init := by
  induction l generalizing init with
  | nil => exact absurd ha (by simp)
  | cons b bs ih =>
    simp only [List.foldl_cons]
    rcases List.mem_cons.mp ha with rfl | hmem
    · exact le_trans (le_max_right init a) (foldl_max_init_le bs (max init a))
    · exact ih (max init b) hmem

/-- A `foldl max` is the initial value or one of the members. -/
theorem foldl_max_cases (l : List Int) (init : Int) :
    l.foldl max init = init ∨ l.foldl max init ∈ l := by
  induction l generalizing init with
  | nil => exact Or.inl rfl
  | cons b bs ih =>
    simp only [List.foldl_cons]
    rcases ih (max init b) with h | h
    · rcases max_choice init b with hm | hm
      · exact Or.inl (by rw [h, hm])
      · exact Or.inr (by rw [h, hm]; exact List.mem_cons_self b bs)
    · exact Or.inr (List.mem_cons_of_mem b h)

/-- The loader's running maximum realises the spec's `maxdim`
invariant. -/
theorem maxIdx_spec (xs : List (List gp_sample)) : maxSpec xs (maxIdx xs) := by
  constructor
  · intro sv hsv s hs
    refine foldl_max_mem_le _ 0 s.index ?_
    exact List.mem_flatMap.mpr ⟨sv, hsv, List.mem_map_of_mem _ hs⟩
  · simp only [maxIdx]
    rcases foldl_max_cases (xs.flatMap fun sv => sv.map gp_sample.index) 0 with h | h
    · exact Or.inr h
    · left
      rcases List.mem_flatMap.mp h with ⟨sv, hsv, hmem⟩
      rcases List.mem_map.mp hmem with ⟨s, hs, hsx⟩
      exact ⟨sv, hsv, s, hs, hsx⟩

/- ## The claims -/

/-- C1: for every in-memory Model whose counts are consistent and
whose feature indices are positive (the data model's invariants),
`readModel (storeModel M)` reproduces `M` in every field that is not a
derived cache, the derived `quadratic_value` cache is recomputed
identically, and consequently `storeModel (readModel (storeModel M))`
is byte-identical to `storeModel M`. -/
theorem c1_model_roundtrip (m : model)
    (hn : m.nData = (m.x.length : Int))
    (hw : m.weights.length = m.x.length)
    (hidx : ∀ sv ∈ m.x, ∀ s ∈ sv, 0 < s.index) :
    readModel (storeModel m) =
      Except.ok { m with quadratic_value := m.x.map sumSq } ∧
    storeModel { m with quadratic_value := m.x.map sumSq } = storeModel m :=
  ⟨storeModel_readModel m hn hw hidx, rfl⟩

/-- Witness for C1: the round trip at a concrete two-feature model. -/
theorem c1_model_roundtrip_witness :
    readModel (storeModel ⟨1, [2], 1, [3], 5, [[⟨1, 2⟩, ⟨4, 7⟩]], [99], 2, 4⟩) =
      Except.ok { (⟨1, [2], 1, [3], 5, [[⟨1, 2⟩, ⟨4, 7⟩]], [99], 2, 4⟩ : model) with
        quadratic_value := ([[⟨1, 2⟩, ⟨4, 7⟩]] : List (List gp_sample)).map sumSq } ∧
    storeModel { (⟨1, [2], 1, [3], 5, [[⟨1, 2⟩, ⟨4, 7⟩]], [99], 2, 4⟩ : model) with
        quadratic_value := ([[⟨1, 2⟩, ⟨4, 7⟩]] : List (List gp_sample)).map sumSq } =
      storeModel ⟨1, [2], 1, [3], 5, [[⟨1, 2⟩, ⟨4, 7⟩]], [99], 2, 4⟩ :=
  c1_model_roundtrip ⟨1, [2], 1, [3], 5, [[⟨1, 2⟩, ⟨4, 7⟩]], [99], 2, 4⟩
    (by decide) (by decide) (by decide)

/-- C2: every Dataset produced by `readTrainFile` or
`readUnlabeledFile` and every Model produced by `readModel` carries a
`quadratic_value` cache equal, entry by entry, to the sum of squared
feature values of the corresponding sample/support vector; in
particular `readModel` recomputes it from the loaded features (the
persisted record does not even carry it). -/
theorem c2_quadratic_cache :
    (∀ (lines : List String) (d : gp_dataset),
        readTrainFile (some lines) = Except.ok d →
        d.quadratic_value = d.x.map sumSq) ∧
    (∀ (lines : List String) (d : gp_dataset),
        readUnlabeledFile (some lines) = Except.ok d →
        d.quadratic_value = d.x.map sumSq) ∧
    (∀ (ts : List Tok) (m : model),
        readModel ts = Except.ok m →
        m.quadratic_value = m.x.map sumSq) := by
  refine ⟨?_, ?_, readModel_ok_cache⟩
  · intro lines d h
    rcases readTrainFile_ok lines d h with ⟨rows, _, rfl⟩
    rfl
  · intro lines d h
    rcases readUnlabeledFile_ok lines d h with ⟨xs, _, rfl⟩
    rfl

/-- Witness for C2: the cache of a concrete labeled load. -/
theorem c2_quadratic_cache_witness :
    (⟨true, true, 1, [1], [[⟨1, 2⟩]], [4]⟩ : gp_dataset).quadratic_value =
      (⟨true, true, 1, [1], [[⟨1, 2⟩]], [4]⟩ : gp_dataset).x.map sumSq :=
  c2_quadratic_cache.1 ["1 1:2"] ⟨true, true, 1, [1], [[⟨1, 2⟩]], [4]⟩
    (by with_unfolding_all decide)

/-- C3 (amended): every Dataset produced by the loaders satisfies the
`maxdim` invariant — `maxdim` is the maximum feature index observed,
or 0 when there is none.  `readModel`, however, takes `maxdim` from
the persisted field, so a Model produced by `readModel` satisfies the
invariant when its input was written by `storeModel` from a model
satisfying it (not for arbitrary structurally valid streams). -/
theorem c3_maxdim :
    (∀ (lines : List String) (d : gp_dataset),
        readTrainFile (some lines) = Except.ok d → maxSpec d.x d.maxdim) ∧
    (∀ (lines : List String) (d : gp_dataset),
        readUnlabeledFile (some lines) = Except.ok d → maxSpec d.x d.maxdim) ∧
    (∀ m : model, m.nData = (m.x.length : Int) →
        m.weights.length = m.x.length →
        (∀ sv ∈ m.x, ∀ s ∈ sv, 0 < s.index) →
        maxSpec m.x m.maxdim →
        ∀ m', readModel (storeModel m) = Except.ok m' →
          maxSpec m'.x m'.maxdim) := by
  refine ⟨?_, ?_, ?_⟩
  · intro lines d h
    rcases readTrainFile_ok lines d h with ⟨rows, _, rfl⟩
    exact maxIdx_spec (rows.map Prod.snd)
  · intro lines d h
    rcases readUnlabeledFile_ok lines d h with ⟨xs, _, rfl⟩
    exact maxIdx_spec xs
  · intro m hn hw hidx hm m' h
    rw [storeModel_readModel m hn hw hidx] at h
    cases Except.ok.inj h
    exact hm

/-- Counterexample for C3 as frozen: `readModel` accepts a
structurally valid stream whose persisted `maxdim` field (99) is not
the maximum feature index (1) of its support vectors, so not every
Model produced by `readModel` has `maxdim` equal to the maximum
observed feature index. -/
theorem c3_maxdim_counterexample :
    readModel [Tok.i 0, Tok.i 0, Tok.f 0, Tok.i 1, Tok.i 1, Tok.i 99,
               Tok.i 1, Tok.i 1, Tok.f 2, Tok.f 5] =
      Except.ok ⟨0, [], 1, [5], 0, [[⟨1, 2⟩]], [4], 1, 99⟩ ∧
    ¬ maxSpec ([[⟨1, 2⟩]] : List (List gp_sample)) 99 := by
  constructor
  · with_unfolding_all decide
  · decide

/-- Witness for C3: the amended statement at a concrete labeled load
and at a concrete stored-then-read model. -/
theorem c3_maxdim_witness :
    maxSpec ([[⟨1, 5⟩, ⟨3, 2⟩], [⟨2, 4⟩]] : List (List gp_sample)) 3 ∧
    maxSpec ([[⟨1, 2⟩]] : List (List gp_sample)) 1 := by
  constructor
  · exact c3_maxdim.1 ["+1 1:5 3:2", "-1 2:4"]
      ⟨true, true, 3, [1, -1], [[⟨1, 5⟩, ⟨3, 2⟩], [⟨2, 4⟩]], [29, 16]⟩
      (by with_unfolding_all decide)
  · exact c3_maxdim.2.2 ⟨0, [], 1, [5], 0, [[⟨1, 2⟩]], [4], 1, 1⟩
      (by decide) (by decide) (by decide) (by decide)
      ⟨0, [], 1, [5], 0, [[⟨1, 2⟩]], [4], 1, 1⟩
      (by with_unfolding_all decide)

/-- C4: a malformed feature token anywhere in the input makes the
whole load (`readUnlabeledFile`, and `readTrainFile` for a token after
the label) fail with `FormatError`; no Dataset value reaches the
caller (the result is the bare error). -/
theorem c4_malformed_aborts :
    (∀ (lines : List String) (t : String) (tok : List Char),
        t ∈ lines → tok ∈ lineTokens t →
        decodeToken tok = Except.error Err.FormatError →
        readUnlabeledFile (some lines) = Except.error Err.FormatError) ∧
    (∀ (lines : List String) (t : String) (lab : List Char)
        (feats : List (List Char)) (tok : List Char),
        t ∈ lines → lineTokens t = lab :: feats → tok ∈ feats →
        decodeToken tok = Except.error Err.FormatError →
        readTrainFile (some lines) = Except.error Err.FormatError) := by
  constructor
  · intro lines t tok ht htok hbad
    have hline := parseUnlabeledToks_err_of_tok (lineTokens t) tok htok hbad
    have hmem := lineTokens_mem_filter lines t tok ht htok
    have hall := mapExcept_error_of_mem parseUnlabeledToks _ (lineTokens t) hmem
      Err.FormatError hline parseUnlabeledToks_error
    simp [readUnlabeledFile, hall]
  · intro lines t lab feats tok ht hlt htok hbad
    have hline := parseLabeledToks_err_of_tok lab feats tok htok hbad
    have hmem : lineTokens t ∈ (lines.map lineTokens).filter (fun ts => !ts.isEmpty) :=
      lineTokens_mem_filter lines t tok ht (by rw [hlt]; exact List.mem_cons_of_mem lab htok)
    rw [hlt] at hmem
    have hall := mapExcept_error_of_mem parseLabeledToks _ (lab :: feats) hmem
      Err.FormatError hline parseLabeledToks_error
    simp [readTrainFile, hall]

/-- Witness for C4: the spec's own example, a line `1:abc`. -/
theorem c4_malformed_aborts_witness :
    readUnlabeledFile (some ["1:abc"]) = Except.error Err.FormatError ∧
    readTrainFile (some ["1 1:abc"]) = Except.error Err.FormatError := by
  constructor
  · exact c4_malformed_aborts.1 ["1:abc"] "1:abc" "1:abc".data
      (by simp) (by with_unfolding_all decide) (by with_unfolding_all decide)
  · exact c4_malformed_aborts.2 ["1 1:abc"] "1 1:abc" "1".data ["1:abc".data] "1:abc".data
      (by simp) (by with_unfolding_all decide) (by simp) (by with_unfolding_all decide)

/-- C5: every successful labeled load has the labeled flag `l` set,
one sample per non-blank input line, and exactly one label per
sample. -/
theorem c5_labeled_shape (lines : List String) (d : gp_dataset)
    (h : readTrainFile (some lines) = Except.ok d) :
    d.l = true ∧ d.x.length = (lines.filter nonBlank).length ∧
      d.y.length = d.x.length := by
  rcases readTrainFile_ok lines d h with ⟨rows, hrows, rfl⟩
  refine ⟨rfl, ?_, by simp⟩
  have hlen := mapExcept_length parseLabeledToks _ rows hrows
  simp [hlen, filter_lineTokens_length]

/-- Witness for C5: a concrete two-line labeled load with one blank
line. -/
theorem c5_labeled_shape_witness :
    (⟨true, true, 2, [1, 2], [[⟨1, 2⟩], [⟨2, 3⟩]], [4, 9]⟩ : gp_dataset).l = true ∧
    (⟨true, true, 2, [1, 2], [[⟨1, 2⟩], [⟨2, 3⟩]], [4, 9]⟩ : gp_dataset).x.length =
      (["1 1:2", "", "2 2:3"].filter nonBlank).length ∧
    (⟨true, true, 2, [1, 2], [[⟨1, 2⟩], [⟨2, 3⟩]], [4, 9]⟩ : gp_dataset).y.length =
      (⟨true, true, 2, [1, 2], [[⟨1, 2⟩], [⟨2, 3⟩]], [4, 9]⟩ : gp_dataset).x.length :=
  c5_labeled_shape ["1 1:2", "", "2 2:3"]
    ⟨true, true, 2, [1, 2], [[⟨1, 2⟩], [⟨2, 3⟩]], [4, 9]⟩
    (by with_unfolding_all decide)

/-- C6: `storeModel` writes exactly the fixed-order, untagged record:
kernel type code, hyperparameter count and values, bias,
support-vector count, `nElem`, `maxdim`, then per support vector its
encoded feature list followed by its weight. -/
theorem c6_storeModel_layout (m : model) :
    storeModel m =
      [Tok.i m.kernelType, Tok.i (m.kernelHyperParam.length : Int)] ++
      m.kernelHyperParam.map Tok.f ++
      [Tok.f m.bias, Tok.i m.nData, Tok.i m.nElem, Tok.i m.maxdim] ++
      (m.x.zip m.weights).flatMap (fun p =>
        Tok.i (p.1.length : Int) ::
          (p.1.flatMap (fun s => [Tok.i s.index, Tok.f s.value]) ++ [Tok.f p.2])) := by
  simp [storeModel, emitFloats_eq, encodeSVs_eq]

/-- C7: `writeOutput` writes exactly `size` values, one per line, in
input order (`predictions[0]` through `predictions[size-1]`), nothing
beyond them, and releases the destination. -/
theorem c7_writeOutput_exact (predictions : List ℚ) (size : Nat)
    (h : size ≤ predictions.length) :
    ∃ out, writeOutput true predictions size = Except.ok out ∧
      out.lines.length = size ∧
      (∀ i, i < size → out.lines[i]? = predictions[i]?) ∧
      out.released = true := by
  refine ⟨⟨predictions.take size, true⟩, rfl, ?_, ?_, rfl⟩
  · simp [List.length_take, h]
  · intro i hi
    simp [List.getElem?_take, hi]

/-- Witness for C7: the spec's example `[0.5, -1.2]` with count 2. -/
theorem c7_writeOutput_exact_witness :
    ∃ out, writeOutput true [1/2, -6/5] 2 = Except.ok out ∧
      out.lines.length = 2 ∧
      (∀ i, i < 2 → out.lines[i]? = [(1 : ℚ)/2, -6/5][i]?) ∧
      out.released = true :=
  c7_writeOutput_exact [1/2, -6/5] 2 (by decide)

/-- C8: no public procedure of the header reports failure through its
return value — the loaders return the struct by value, the rest return
void, and no signature carries a status return or a status
out-parameter. -/
theorem c8_no_error_channel :
    (∀ f ∈ coreAPI, exposesErrorChannel f = false) ∧
    coreAPI.map CFun.ret =
      [CType.void, CType.void, CType.gp_datasetV, CType.gp_datasetV,
       CType.void, CType.void, CType.void] := by
  decide

/-- C9: in both structs the per-sample feature lists are addressed by
a raw `gp_sample **` pointer array into the shared `gp_sample *`
arena, and no field stores a per-sample feature count or an
(offset, length) span — the only integer fields are the named global
scalars, and no `int *` (per-sample count array) field exists. -/
theorem c9_raw_pointer_layout :
    ("x", CType.gp_samplePtrPtr) ∈ gp_dataset_fields ∧
    ("x", CType.gp_samplePtrPtr) ∈ model_fields ∧
    ("features", CType.gp_samplePtr) ∈ gp_dataset_fields ∧
    ("features", CType.gp_samplePtr) ∈ model_fields ∧
    (∀ fld ∈ gp_dataset_fields, fld.2 ≠ CType.intPtr) ∧
    (∀ fld ∈ model_fields, fld.2 ≠ CType.intPtr) ∧
    (∀ fld ∈ gp_dataset_fields, fld.2 = CType.int →
      fld.1 = "l" ∨ fld.1 = "sparse" ∨ fld.1 = "maxdim") ∧
    (∀ fld ∈ model_fields, fld.2 = CType.int →
      fld.1 = "kernelType" ∨ fld.1 = "nData" ∨ fld.1 = "nElem" ∨ fld.1 = "maxdim") := by
  decide

/-- C10: `freeDataset`/`freeModel` take their argument by value, so
after the call every field of the caller's own record still holds its
prior value — even though the callee's local copy is modified (shown
by the last two conjuncts) and the heap blocks are released. -/
theorem c10_free_by_value (d : gp_datasetC) (m : modelC) (h : Heap)
    (hdx : d.x ≠ 0) (hmw : m.weights ≠ 0) :
    (callFreeDataset d h).1 = d ∧
    (callFreeDataset d h).1.x = d.x ∧
    (callFreeDataset d h).1.y = d.y ∧
    (callFreeDataset d h).1.quadratic_value = d.quadratic_value ∧
    (callFreeDataset d h).1.features = d.features ∧
    (callFreeModel m h).1 = m ∧
    (callFreeModel m h).1.weights = m.weights ∧
    (callFreeModel m h).1.kernelHyperParam = m.kernelHyperParam ∧
    (callFreeModel m h).1.x = m.x ∧
    (callFreeModel m h).1.quadratic_value = m.quadratic_value ∧
    (freeDatasetBody d h).1 ≠ d ∧
    (freeModelBody m h).1 ≠ m := by
  refine ⟨rfl, rfl, rfl, rfl, rfl, rfl, rfl, rfl, rfl, rfl, ?_, ?_⟩
  · intro heq
    exact hdx (congrArg gp_datasetC.x heq).symm
  · intro heq
    exact hmw (congrArg modelC.weights heq).symm

/-- Witness for C10 at a concrete record and heap. -/
theorem c10_free_by_value_witness :
    (callFreeDataset ⟨1, 1, 3, 10, 11, 12, 13⟩ [10, 11, 12, 13]).1 = ⟨1, 1, 3, 10, 11, 12, 13⟩ ∧
    (callFreeDataset ⟨1, 1, 3, 10, 11, 12, 13⟩ [10, 11, 12, 13]).1.x = (⟨1, 1, 3, 10, 11, 12, 13⟩ : gp_datasetC).x ∧
    (callFreeDataset ⟨1, 1, 3, 10, 11, 12, 13⟩ [10, 11, 12, 13]).1.y = (⟨1, 1, 3, 10, 11, 12, 13⟩ : gp_datasetC).y ∧
    (callFreeDataset ⟨1, 1, 3, 10, 11, 12, 13⟩ [10, 11, 12, 13]).1.quadratic_value = (⟨1, 1, 3, 10, 11, 12, 13⟩ : gp_datasetC).quadratic_value ∧
    (callFreeDataset ⟨1, 1, 3, 10, 11, 12, 13⟩ [10, 11, 12, 13]).1.features = (⟨1, 1, 3, 10, 11, 12, 13⟩ : gp_datasetC).features ∧
    (callFreeModel ⟨0, 20, 1, 21, 0, 22, 23, 1, 1, 24⟩ [10, 11, 12, 13]).1 = ⟨0, 20, 1, 21, 0, 22, 23, 1, 1, 24⟩ ∧
    (callFreeModel ⟨0, 20, 1, 21, 0, 22, 23, 1, 1, 24⟩ [10, 11, 12, 13]).1.weights = (⟨0, 20, 1, 21, 0, 22, 23, 1, 1, 24⟩ : modelC).weights ∧
    (callFreeModel ⟨0, 20, 1, 21, 0, 22, 23, 1, 1, 24⟩ [10, 11, 12, 13]).1.kernelHyperParam = (⟨0, 20, 1, 21, 0, 22, 23, 1, 1, 24⟩ : modelC).kernelHyperParam ∧
    (callFreeModel ⟨0, 20, 1, 21, 0, 22, 23, 1, 1, 24⟩ [10, 11, 12, 13]).1.x = (⟨0, 20, 1, 21, 0, 22, 23, 1, 1, 24⟩ : modelC).x ∧
    (callFreeModel ⟨0, 20, 1, 21, 0, 22, 23, 1, 1, 24⟩ [10, 11, 12, 13]).1.quadratic_value = (⟨0, 20, 1, 21, 0, 22, 23, 1, 1, 24⟩ : modelC).quadratic_value ∧
    (freeDatasetBody ⟨1, 1, 3, 10, 11, 12, 13⟩ [10, 11, 12, 13]).1 ≠ ⟨1, 1, 3, 10, 11, 12, 13⟩ ∧
    (freeModelBody ⟨0, 20, 1, 21, 0, 22, 23, 1, 1, 24⟩ [10, 11, 12, 13]).1 ≠ ⟨0, 20, 1, 21, 0, 22, 23, 1, 1, 24⟩ :=
  c10_free_by_value ⟨1, 1, 3, 10, 11, 12, 13⟩ ⟨0, 20, 1, 21, 0, 22, 23, 1, 1, 24⟩
    [10, 11, 12, 13] (by decide) (by decide)

